import Mathlib

/-!
# The RPT handler of `traefik_rpthandler`

A shallow embedding of `src/rpthandler.go` and the properties of its request
path.

Conventions of the embedding.

* A Go `string` is a Lean `String`: the texts handled here are UTF-8, and the
  byte-level library routines used by the source (`len`, `strings.Trim` with a
  one-byte ASCII cutset, `url.QueryEscape`) are rendered on the characters, going
  through the UTF-8 bytes of a character where the routine looks at bytes.
* `http.ResponseWriter`, the downstream `http.Handler`, the `http.Client` and the
  logger are collaborators of the handler.  A run of `ServeHTTP` is described by
  the sequence of calls it makes on them (`Event`) together with the final state
  of the request object it mutates in place.
* What the network and the JSON decoder answer is not decided by this code; it is
  supplied by an `Env`, and every theorem holds for every `Env`.
-/

namespace TraefikRpt

/-! ## `net/http` data -/

/-- Go `http.Header`, a map from canonical header names to value lists, kept as an
association list in which the first entry for a key is the binding of that key. -/
structure Header where
  entries : List (String × List String)
deriving DecidableEq, Repr

namespace Header

/-- The map lookup `h[key]`: the value slice stored for `key`, `nil` when absent.
The keys used by the source are already in canonical MIME form. -/
def Values (h : Header) (key : String) : List String :=
  match h.entries.lookup key with
  | some vs => vs
  | none => []

/-- Go `Header.Get`: the first value stored for `key`, or `""` when there is none. -/
def Get (h : Header) (key : String) : String :=
  match h.Values key with
  | [] => ""
  | v :: _ => v

/-- Go `Header.Set`: the binding of `key` becomes the one-element slice `[value]`. -/
def Set (h : Header) (key value : String) : Header :=
  ⟨(key, [value]) :: h.entries.filter (fun e => e.1 != key)⟩

/-- Go `Header.Add`: `value` is appended to the slice stored for `key`. -/
def Add (h : Header) (key value : String) : Header :=
  ⟨(key, h.Values key ++ [value]) :: h.entries.filter (fun e => e.1 != key)⟩

end Header

/-- The part of Go `http.Request` that a handler can observe. -/
structure Request where
  Method : String
  URL : String
  Header : Header
  Body : String
deriving DecidableEq, Repr

/-- Go `http.Response` as far as the handler uses it: `Body` is what `io.ReadAll`
gives on the body stream, the bytes or a read error. -/
structure Response where
  StatusCode : Nat
  Body : Except String String

/-- Constant `http.MethodPost`. -/
def MethodPost : String := "POST"

/-- Constant `http.StatusInternalServerError`. -/
def StatusInternalServerError : Nat := 500

/-- Constant `http.StatusForbidden`. -/
def StatusForbidden : Nat := 403

/-- Constant `http.StatusUnauthorized`. -/
def StatusUnauthorized : Nat := 401

/-! ## The types of the package -/

/-- Type `Config`, the plugin configuration. -/
structure Config where
  Keycloak : String
  Audience : String
deriving DecidableEq, Repr

/-- Function `CreateConfig`: the zero-valued configuration. -/
def CreateConfig : Config := ⟨"", ""⟩

/-- Type `RptHandler`; `H` is the type of the downstream `http.Handler`. -/
structure RptHandler (H : Type) where
  next : H
  keycloak : String
  audience : String
  name : String
deriving DecidableEq, Repr

/-- Type `RptTokenBody`, the decoded exchange response.  The default of every field is
the Go zero value. -/
structure RptTokenBody where
  Upgraded : Bool := false
  Access_token : String := ""
  Expires_in : Int := 0
  Refresh_expires_in : Int := 0
  Refresh_token : String := ""
  Token_type : String := ""
  Not_before_policy : Int := 0
  Error : String := ""
deriving DecidableEq, Repr

/-- What the outside world answers during one request. -/
structure Env where
  /-- The `url.Parse` step of `http.NewRequest`: the error for a target it rejects. -/
  urlParse : String → Option String
  /-- The call `client.Do`: the response, or the transport error. -/
  Do : Request → Except String Response
  /-- The call `json.Unmarshal(body, &v)`: the structure after the call (filled as far as
  the decoder got) and the error it returned, if any. -/
  Unmarshal : String → RptTokenBody → RptTokenBody × Option String

/-- One call made by `ServeHTTP` on a collaborator. -/
inductive Event (H : Type) where
  /-- The call `rw.Header().Set(key, value)`. -/
  | headerSet (key value : String)
  /-- The call `rw.WriteHeader(code)`. -/
  | writeHeader (code : Nat)
  /-- The call `next.ServeHTTP(rw, req)`, with the request as it is at the call -/
  | next (h : H) (req : Request)
  /-- The call `client.Do(r)`. -/
  | clientDo (r : Request)
  /-- The call `resp.Body.Close()`. -/
  | bodyClose
  /-- The call `log.Println(args...)`. -/
  | log (args : List String)
deriving DecidableEq, Repr

/-- A finished run of `ServeHTTP`: the calls in order and the request object as
the run leaves it. -/
structure Result (H : Type) where
  trace : List (Event H)
  req : Request
deriving DecidableEq, Repr

/-! ## Observations on a trace -/

/-- The downstream invocations, in order. -/
def nextCalls {H : Type} : List (Event H) → List (H × Request)
  | [] => []
  | .next h r :: es => (h, r) :: nextCalls es
  | _ :: es => nextCalls es

/-- The status codes written to the response writer, in order. -/
def statusWrites {H : Type} : List (Event H) → List Nat
  | [] => []
  | .writeHeader c :: es => c :: statusWrites es
  | _ :: es => statusWrites es

/-- The response headers set on the response writer, in order. -/
def headerSets {H : Type} : List (Event H) → List (String × String)
  | [] => []
  | .headerSet k v :: es => (k, v) :: headerSets es
  | _ :: es => headerSets es

/-- The outbound exchange calls, in order. -/
def exchangeCalls {H : Type} : List (Event H) → List Request
  | [] => []
  | .clientDo r :: es => r :: exchangeCalls es
  | _ :: es => exchangeCalls es

/-- The calls made on the response writer, in order. -/
def rwCalls {H : Type} : List (Event H) → List (Event H)
  | [] => []
  | .headerSet k v :: es => .headerSet k v :: rwCalls es
  | .writeHeader c :: es => .writeHeader c :: rwCalls es
  | _ :: es => rwCalls es

/-! ## `strings.Trim` -/

/-- Go `strings.trimLeftByte`: drop `c` from the front while it is there. -/
def trimLeftByte : List Char → Char → List Char
  | [], _ => []
  | x :: xs, c => if x = c then trimLeftByte xs c else x :: xs

/-- The loop of Go `strings.trimRightByte`, `n` bounding the iterations. -/
def trimRightLoop : Nat → List Char → Char → List Char
  | 0, s, _ => s
  | n + 1, s, c => if s.getLast? = some c then trimRightLoop n s.dropLast c else s

/-- Go `strings.trimRightByte`: drop `c` from the end while it is there. -/
def trimRightByte (s : List Char) (c : Char) : List Char :=
  trimRightLoop s.length s c

/-- Go `strings.Trim(s, cutset)`.  A cutset of one ASCII byte takes the byte
loops; any other cutset removes the leading and trailing characters that occur
in it. -/
def Trim (s cutset : String) : String :=
  if s = "" ∨ cutset = "" then s
  else
    match cutset.data with
    | [c] =>
      if c.toNat < 128 then ⟨trimLeftByte (trimRightByte s.data c) c⟩
      else ⟨((s.data.reverse.dropWhile (fun x => x == c)).reverse).dropWhile (fun x => x == c)⟩
    | cs => ⟨((s.data.reverse.dropWhile (fun x => cs.contains x)).reverse).dropWhile
        (fun x => cs.contains x)⟩

/-! ## `net/url`: form encoding -/

/-- Go `url.Values`, a map from keys to value lists, kept like `Header`. -/
structure Values where
  entries : List (String × List String)
deriving DecidableEq, Repr

namespace Values

/-- The map lookup `v[key]`. -/
def Get (v : Values) (key : String) : List String :=
  match v.entries.lookup key with
  | some vs => vs
  | none => []

/-- Go `Values.Set`: the binding of `key` becomes `[value]`. -/
def Set (v : Values) (key value : String) : Values :=
  ⟨(key, [value]) :: v.entries.filter (fun e => e.1 != key)⟩

end Values

/-- The order of Go strings, byte by byte; on UTF-8 text this is the order of the
code points. -/
def lexLe : List Char → List Char → Bool
  | [], _ => true
  | _ :: _, [] => false
  | a :: as, b :: bs => decide (a.toNat < b.toNat) || (a == b && lexLe as bs)

/-- The UTF-8 bytes of a character. -/
def utf8Bytes (c : Char) : List Nat :=
  (String.utf8EncodeChar c).map UInt8.toNat

/-- The UTF-8 bytes of a text, which is the Go string itself. -/
def utf8 (s : String) : List Nat :=
  s.data.flatMap utf8Bytes

/-- Go `url.shouldEscape(c, encodeQueryComponent)`: everything is escaped but the
ASCII letters and digits and `-`, `_`, `.`, `~`. -/
def shouldEscape (c : Char) : Bool :=
  !(('a' ≤ c && c ≤ 'z') || ('A' ≤ c && c ≤ 'Z') || ('0' ≤ c && c ≤ '9')
    || c == '-' || c == '_' || c == '.' || c == '~')

/-- The table `upperhex` of `net/url`, indexed by a nibble. -/
def upperhex (n : Nat) : Char :=
  "0123456789ABCDEF".data.getD n '0'

/-- One escaped byte: `%` and the two hexadecimal digits `c>>4`, `c&15`. -/
def escapeByte (b : Nat) : List Char :=
  ['%', upperhex (b / 16), upperhex (b % 16)]

/-- What `url.escape` in mode `encodeQueryComponent` writes for one character of
the input: `+` for a space, the escaped bytes of a character that must be
escaped, the character itself otherwise. -/
def escapeChar (c : Char) : List Char :=
  if c = ' ' then ['+']
  else if shouldEscape c then (utf8Bytes c).flatMap escapeByte
  else [c]

/-- Go `url.QueryEscape`. -/
def QueryEscape (s : String) : String :=
  ⟨s.data.flatMap escapeChar⟩

/-- Go `Values.Encode`: the keys in sorted order, each value of a key written as
`key=value` with both sides escaped, and `&` written first whenever the buffer
is not empty (`buf.Len() > 0`). -/
def Values.Encode (v : Values) : String :=
  let keys := List.insertionSort (fun a b : String => lexLe a.data b.data = true)
    (v.entries.map (fun e => e.1)).eraseDups
  keys.foldl (fun buf k =>
    (v.Get k).foldl (fun buf x =>
      (if buf.length > 0 then buf ++ "&" else buf) ++ QueryEscape k ++ "=" ++ QueryEscape x)
      buf) ""

/-- Go `http.NewRequest`: the method here is always the valid `POST`, so the call
fails exactly when the target does not parse; the new request has no headers. -/
def NewRequest (env : Env) (method url body : String) : Except String Request :=
  match env.urlParse url with
  | some err => .error err
  | none => .ok { Method := method, URL := url, Header := ⟨[]⟩, Body := body }

/-! ## The handler -/

/-- Function `New` of the package: it refuses an empty `Keycloak` and otherwise
builds the handler from the configuration. `C` is the type of the unused
context. -/
def New {C H : Type} (_ctx : C) (next : H) (config : Config) (name : String) :
    Except String (RptHandler H) :=
  if config.Keycloak.utf8ByteSize == 0 then
    .error "keycloak cannot be empty"
  else
    .ok { keycloak := config.Keycloak, audience := config.Audience, next := next, name := name }

/-- Lines 66 to 79 of `ServeHTTP`: the form with its two fields, the call of
`http.NewRequest` and the two headers added to the new request.  The error is
the one of `http.NewRequest`. -/
def newExchangeRequest (env : Env) (keycloak audience currentAuthHeader : String) :
    Except String Request :=
  let data := ((⟨[]⟩ : Values).Set "grant_type"
    "urn:ietf:params:oauth:grant-type:uma-ticket").Set "audience" audience
  match NewRequest env MethodPost keycloak data.Encode with
  | .error err => .error err
  | .ok newRequest =>
    .ok { newRequest with
      Header := (newRequest.Header.Add "Authorization" currentAuthHeader).Add
        "Content-Type" "application/x-www-form-urlencoded" }

/-- Method `ServeHTTP` of `RptHandler`. -/
def ServeHTTP {H : Type} (env : Env) (a : RptHandler H) (req : Request) : Result H :=
  let currentAuthHeader := req.Header.Get "Authorization"
  let currentOrigin := req.Header.Get "Origin"
  if currentAuthHeader = "" ∨ req.Method = "OPTIONS" then
    ⟨[.next a.next req], req⟩
  else
    match newExchangeRequest env a.keycloak a.audience currentAuthHeader with
    | .error err =>
      ⟨[.log ["Could not create new request", err],
        .headerSet "Access-Control-Allow-Origin" currentOrigin,
        .writeHeader StatusInternalServerError], req⟩
    | .ok newRequest =>
      match env.Do newRequest with
      | .error err =>
        ⟨[.clientDo newRequest,
          .log ["Could not execute request", err],
          .headerSet "Access-Control-Allow-Origin" currentOrigin,
          .writeHeader StatusInternalServerError], req⟩
      | .ok resp =>
        match resp.Body with
        | .error err =>
          ⟨[.clientDo newRequest,
            .log ["Could not read body from response", err],
            .headerSet "Access-Control-Allow-Origin" currentOrigin,
            .writeHeader StatusInternalServerError,
            .bodyClose], req⟩
        | .ok body =>
          let rptTokenBody := (env.Unmarshal body {}).1
          let err := (env.Unmarshal body {}).2
          let newAuthorizationHeader := "Bearer " ++ rptTokenBody.Access_token
          match err with
          | some e =>
            ⟨[.clientDo newRequest,
              .log ["Unmarshalling failed :", e],
              .headerSet "Access-Control-Allow-Origin" currentOrigin,
              .writeHeader StatusForbidden,
              .bodyClose], req⟩
          | none =>
            if rptTokenBody.Error.utf8ByteSize > 0 then
              if Trim rptTokenBody.Error " " = "invalid_grant" then
                ⟨[.clientDo newRequest,
                  .log ["Invalid grant :", rptTokenBody.Error],
                  .headerSet "Access-Control-Allow-Origin" currentOrigin,
                  .writeHeader StatusUnauthorized,
                  .bodyClose], req⟩
              else
                ⟨[.clientDo newRequest,
                  .log ["Request failed :", rptTokenBody.Error],
                  .headerSet "Access-Control-Allow-Origin" currentOrigin,
                  .writeHeader StatusForbidden,
                  .bodyClose], req⟩
            else
              let req1 := { req with
                Header := req.Header.Set "Authorization" newAuthorizationHeader }
              ⟨[.clientDo newRequest, .next a.next req1, .bodyClose], req1⟩

/-! ## Example inputs -/

/-- An inbound `GET` carrying a bearer credential and an origin. -/
def sampleRequest : Request :=
  { Method := "GET", URL := "/api/items",
    Header := ⟨[("Authorization", ["Bearer user-token"]), ("Origin", ["https://app.example"]),
      ("Accept", ["application/json"])]⟩,
    Body := "" }

/-- A handler for the audience `backend`; the downstream handler is a mere tag. -/
def sampleHandler : RptHandler Unit :=
  { next := (), keycloak := "https://sso.example/token", audience := "backend", name := "rpt" }

/-- What `encoding/json` answers on the bodies used in the examples below.  A body
that decodes gives the filled structure; a field of the wrong JSON type gives an
error after the other fields have been filled; a body that is no JSON gives an
error and leaves the structure as it was. -/
def sampleUnmarshal (body : String) (v : RptTokenBody) : RptTokenBody × Option String :=
  if body = "\x7b\"access_token\":\"abc123\",\"error\":\"\"\x7d" then
    ({ v with Access_token := "abc123", Error := "" }, none)
  else if body = "\x7b\x7d" then
    (v, none)
  else if body = "\x7b\"error\":\"invalid_grant\"\x7d" then
    ({ v with Error := "invalid_grant" }, none)
  else if body = "\x7b\"error\":\"  invalid_grant \"\x7d" then
    ({ v with Error := "  invalid_grant " }, none)
  else if body = "\x7b\"error\":\"\\tinvalid_grant\\n\"\x7d" then
    ({ v with Error := "\tinvalid_grant\n" }, none)
  else if body = "\x7b\"access_token\":\"abc123\",\"error\":\"access_denied\"\x7d" then
    ({ v with Access_token := "abc123", Error := "access_denied" }, none)
  else if body = "\x7b\"access_token\":\"abc123\",\"expires_in\":\"soon\"\x7d" then
    ({ v with Access_token := "abc123" },
      some "json: cannot unmarshal string into Go struct field RptTokenBody.Expires_in of type int")
  else
    (v, some "invalid character in JSON input")

/-- An environment in which the endpoint parses and the authorization server
answers with `body`. -/
def answering (body : String) : Env :=
  { urlParse := fun _ => none
    Do := fun _ => .ok { StatusCode := 200, Body := .ok body }
    Unmarshal := sampleUnmarshal }

/-! ## The words of the specification -/

/-- The error value "trimmed of surrounding spaces", as the specification words
it: the value with all leading and all trailing space characters (U+0020, no
other character) removed. -/
def stripSpaces (s : String) : String :=
  ⟨(s.data.dropWhile (fun x => x == ' ')).rdropWhile (fun x => x == ' ')⟩

/-- A run of `n` space characters. -/
def spaces (n : Nat) : String :=
  ⟨List.replicate n ' '⟩

/-- Go `url.ishex`. -/
def ishex (c : Char) : Bool :=
  ('0' ≤ c && c ≤ '9') || ('a' ≤ c && c ≤ 'f') || ('A' ≤ c && c ≤ 'F')

/-- Go `url.unhex`: the value of a hexadecimal digit. -/
def unhex (c : Char) : Nat :=
  if '0' ≤ c ∧ c ≤ '9' then c.toNat - '0'.toNat
  else if 'a' ≤ c ∧ c ≤ 'f' then c.toNat - 'a'.toNat + 10
  else if 'A' ≤ c ∧ c ≤ 'F' then c.toNat - 'A'.toNat + 10
  else 0

/-- Go `url.QueryUnescape`, giving the bytes of the result: `%XY` is the byte
`unhex X << 4 | unhex Y`, `+` is a space, any other character stands for itself,
and a `%` that is not followed by two hexadecimal digits is an error. -/
def QueryUnescape : List Char → Option (List Nat)
  | [] => some []
  | c :: rest =>
    if c = '%' then
      match rest with
      | x :: y :: rest2 =>
        if ishex x && ishex y then
          (QueryUnescape rest2).map (fun bs => (unhex x * 16 + unhex y) :: bs)
        else none
      | _ => none
    else if c = '+' then (QueryUnescape rest).map (fun bs => 32 :: bs)
    else (QueryUnescape rest).map (fun bs => utf8Bytes c ++ bs)

/-- The pieces of a text between the occurrences of `sep`. -/
def splitOnChar (sep : Char) : List Char → List (List Char)
  | [] => [[]]
  | c :: cs =>
    if c = sep then [] :: splitOnChar sep cs
    else
      match splitOnChar sep cs with
      | [] => [[c]]
      | seg :: segs => (c :: seg) :: segs

/-- Go `strings.Cut` for a one-character separator: the text before the first
`sep` and the text after it (empty when there is no `sep`). -/
def cutChar (sep : Char) : List Char → List Char × List Char
  | [] => ([], [])
  | c :: cs =>
    if c = sep then ([], cs)
    else ((c :: (cutChar sep cs).1), (cutChar sep cs).2)

/-- One `key=value` piece of a form-encoded body, decoded. -/
def parsePair (seg : List Char) : Option (List Nat × List Nat) :=
  if seg.contains ';' then none
  else
    match QueryUnescape (cutChar '=' seg).1, QueryUnescape (cutChar '=' seg).2 with
    | some k, some v => some (k, v)
    | _, _ => none

/-- What a form-encoded body "decodes to", read as Go `url.ParseQuery` reads it:
the pieces between `&`, the empty ones skipped, each cut at its first `=` and
unescaped on both sides.  The result lists the fields in the order of the body,
keys and values as byte sequences; a piece that does not decode makes the whole
body undecodable. -/
def parseForm (body : String) : Option (List (List Nat × List Nat)) :=
  ((splitOnChar '&' body.data).filter (fun seg => !seg.isEmpty)).mapM parsePair

/-! ## Facts about the library routines -/

theorem utf8ByteSize_eq_zero_iff (s : String) : s.utf8ByteSize = 0 ↔ s = "" := by
  constructor
  · intro h
    cases s with
    | mk cs =>
      cases cs with
      | nil => rfl
      | cons c cs =>
        simp [String.utf8ByteSize, String.utf8ByteSize.go] at h
        have := Char.utf8Size_pos c
        omega
  · rintro rfl
    rfl

theorem utf8ByteSize_pos_iff (s : String) : s.utf8ByteSize > 0 ↔ s ≠ "" := by
  rw [Ne, ← utf8ByteSize_eq_zero_iff]
  omega

theorem Header.Values_Set_self (h : Header) (k v : String) :
    (h.Set k v).Values k = [v] := by
  simp [Header.Set, Header.Values, List.lookup]

theorem lookup_filter_ne (l : List (String × List String)) (k k2 : String) (hk : k2 ≠ k) :
    (l.filter (fun e => e.1 != k)).lookup k2 = l.lookup k2 := by
  induction l with
  | nil => rfl
  | cons e l ih =>
    obtain ⟨x, vs⟩ := e
    by_cases hx : x = k
    · subst hx
      have h1 : (k2 == x) = false := by simpa using hk
      simp [List.filter, List.lookup, h1, ih]
    · have h2 : (x != k) = true := by simpa using hx
      simp only [List.filter, h2, List.lookup]
      cases k2 == x <;> simp [ih]

theorem Header.Values_Set_ne (h : Header) (k v k2 : String) (hk : k2 ≠ k) :
    (h.Set k v).Values k2 = h.Values k2 := by
  have h1 : (k2 == k) = false := by simpa using hk
  simp [Header.Set, Header.Values, List.lookup, h1, lookup_filter_ne _ _ _ hk]

theorem Header.Get_Set_self (h : Header) (k v : String) : (h.Set k v).Get k = v := by
  simp [Header.Get, Header.Values_Set_self]

theorem Header.Get_of_Values_nil (h : Header) (k : String) (hk : h.Values k = []) :
    h.Get k = "" := by
  simp [Header.Get, hk]

theorem trimRightLoop_eq (c : Char) :
    ∀ (n : Nat) (s : List Char), s.length ≤ n →
      trimRightLoop n s c = s.rdropWhile (fun x => x == c) := by
  intro n
  induction n with
  | zero =>
    intro s hs
    have : s = [] := List.length_eq_zero.mp (Nat.le_zero.mp hs)
    subst this
    simp [trimRightLoop]
  | succ n ih =>
    intro s hs
    rcases List.eq_nil_or_concat s with h | ⟨l, x, h⟩
    · subst h
      simp [trimRightLoop]
    · subst h
      have hl : l.length ≤ n := by simp at hs; omega
      by_cases hx : x = c
      · subst hx
        simp [trimRightLoop, List.rdropWhile_concat, ih l hl]
      · have hx2 : ¬ c = x := fun h => hx h.symm
        simp [trimRightLoop, List.rdropWhile_concat, hx, hx2]

theorem trimRightByte_eq (s : List Char) (c : Char) :
    trimRightByte s c = s.rdropWhile (fun x => x == c) :=
  trimRightLoop_eq c s.length s (Nat.le_refl _)

theorem trimLeftByte_eq (s : List Char) (c : Char) :
    trimLeftByte s c = s.dropWhile (fun x => x == c) := by
  induction s with
  | nil => rfl
  | cons x xs ih =>
    by_cases h : x = c
    · simp [trimLeftByte, List.dropWhile, h, ih]
    · have h2 : (x == c) = false := by simpa using h
      simp [trimLeftByte, List.dropWhile, h, h2]

theorem rdropWhile_cons_of_nil {α : Type} (p : α → Bool) (x : α) (xs : List α)
    (h : xs.rdropWhile p = []) :
    (x :: xs).rdropWhile p = if p x then [] else [x] := by
  induction xs using List.reverseRecOn with
  | nil => simp [List.rdropWhile_singleton]
  | append_singleton ys y ih =>
    rw [List.rdropWhile_concat] at h
    rw [← List.cons_append, List.rdropWhile_concat]
    by_cases hy : p y = true
    · simp only [hy, if_true] at h ⊢
      exact ih h
    · simp [hy] at h

theorem rdropWhile_cons_of_ne {α : Type} (p : α → Bool) (x : α) (xs : List α)
    (h : xs.rdropWhile p ≠ []) :
    (x :: xs).rdropWhile p = x :: xs.rdropWhile p := by
  induction xs using List.reverseRecOn with
  | nil => simp at h
  | append_singleton ys y ih =>
    rw [List.rdropWhile_concat] at h
    rw [← List.cons_append, List.rdropWhile_concat, List.rdropWhile_concat]
    by_cases hy : p y = true
    · simp only [hy, if_true] at h ⊢
      exact ih h
    · simp [hy]

theorem dropWhile_rdropWhile_comm {α : Type} (p : α → Bool) (l : List α) :
    (l.rdropWhile p).dropWhile p = (l.dropWhile p).rdropWhile p := by
  induction l with
  | nil => simp
  | cons x xs ih =>
    by_cases hn : xs.rdropWhile p = []
    · rw [rdropWhile_cons_of_nil p x xs hn]
      by_cases hx : p x = true
      · simp only [hx, if_true, List.dropWhile_nil, List.dropWhile_cons_of_pos, ← ih, hn]
      · rw [if_neg hx, List.dropWhile_cons_of_neg hx, List.dropWhile_cons_of_neg hx,
          rdropWhile_cons_of_nil p x xs hn, if_neg hx]
    · rw [rdropWhile_cons_of_ne p x xs hn]
      by_cases hx : p x = true
      · simp only [hx, List.dropWhile_cons_of_pos, ← ih]
      · rw [List.dropWhile_cons_of_neg hx, List.dropWhile_cons_of_neg hx,
          rdropWhile_cons_of_ne p x xs hn]

theorem rdropWhile_append_replicate {α : Type} (p : α → Bool) (a : α) (ha : p a = true)
    (l : List α) (n : Nat) : (l ++ List.replicate n a).rdropWhile p = l.rdropWhile p := by
  induction n with
  | zero => simp
  | succ n ih =>
    rw [List.replicate_succ', ← List.append_assoc, List.rdropWhile_concat_pos _ _ _ ha, ih]

theorem dropWhile_replicate_append {α : Type} (p : α → Bool) (a : α) (ha : p a = true)
    (l : List α) (n : Nat) : (List.replicate n a ++ l).dropWhile p = l.dropWhile p := by
  induction n with
  | zero => simp
  | succ n ih => simp [List.replicate_succ, List.dropWhile, ha, ih]

theorem Trim_space (e : String) :
    Trim e " " = ⟨(e.data.rdropWhile (fun x => x == ' ')).dropWhile (fun x => x == ' ')⟩ := by
  by_cases he : e = ""
  · subst he
    simp [Trim]
  · have hc : (" " : String).data = [' '] := rfl
    have hn : ¬ ((" " : String) = "") := by decide
    have h128 : (' ' : Char).toNat < 128 := by decide
    simp only [Trim, he, hn, or_self, if_false, hc, h128, if_true, trimLeftByte_eq,
      trimRightByte_eq]

theorem Trim_space_eq_stripSpaces (e : String) : Trim e " " = stripSpaces e := by
  rw [Trim_space, stripSpaces, dropWhile_rdropWhile_comm]

theorem Trim_space_padded (m n : Nat) (w : String) (hw : Trim w " " = w) :
    Trim (spaces m ++ w ++ spaces n) " " = w := by
  have hsp : ((fun x => x == ' ') ' ') = true := by decide
  have h1 : (spaces m ++ w ++ spaces n).data
      = List.replicate m ' ' ++ (w.data ++ List.replicate n ' ') := by
    simp [spaces, String.data_append]
  rw [Trim_space_eq_stripSpaces] at hw ⊢
  have hw2 : (w.data.dropWhile (fun x => x == ' ')).rdropWhile (fun x => x == ' ') = w.data := by
    have := congrArg String.data hw
    simpa [stripSpaces] using this
  rw [stripSpaces, h1, dropWhile_replicate_append (fun x => x == ' ') ' ' hsp,
    ← dropWhile_rdropWhile_comm,
    rdropWhile_append_replicate (fun x => x == ' ') ' ' hsp, dropWhile_rdropWhile_comm, hw2]

/-! ## The request path -/

/-- The run of `ServeHTTP` once the exchange has answered and the body has been
decoded without error: the three outcomes by the `Error` field. -/
theorem ServeHTTP_decoded {H : Type} (env : Env) (a : RptHandler H) (req r : Request)
    (resp : Response) (body : String) (tb : RptTokenBody)
    (hauth : req.Header.Get "Authorization" ≠ "") (hm : req.Method ≠ "OPTIONS")
    (hreq : newExchangeRequest env a.keycloak a.audience (req.Header.Get "Authorization") = .ok r)
    (hdo : env.Do r = .ok resp) (hread : resp.Body = .ok body)
    (hdec : env.Unmarshal body {} = (tb, none)) :
    ServeHTTP env a req =
      if tb.Error = "" then
        ⟨[.clientDo r,
          .next a.next { req with
            Header := req.Header.Set "Authorization" ("Bearer " ++ tb.Access_token) },
          .bodyClose],
         { req with Header := req.Header.Set "Authorization" ("Bearer " ++ tb.Access_token) }⟩
      else if Trim tb.Error " " = "invalid_grant" then
        ⟨[.clientDo r, .log ["Invalid grant :", tb.Error],
          .headerSet "Access-Control-Allow-Origin" (req.Header.Get "Origin"),
          .writeHeader 401, .bodyClose], req⟩
      else
        ⟨[.clientDo r, .log ["Request failed :", tb.Error],
          .headerSet "Access-Control-Allow-Origin" (req.Header.Get "Origin"),
          .writeHeader 403, .bodyClose], req⟩ := by
  by_cases he : tb.Error = ""
  · have h0 : ¬ (0 < tb.Error.utf8ByteSize) := by rw [he]; decide
    rw [if_pos he]
    simp [ServeHTTP, hauth, hm, hreq, hdo, hread, hdec, h0]
  · have h0 : 0 < tb.Error.utf8ByteSize := (utf8ByteSize_pos_iff _).2 he
    simp [ServeHTTP, hauth, hm, hreq, hdo, hread, hdec, h0, he, StatusUnauthorized,
      StatusForbidden]

/-- The run of `ServeHTTP` when the exchange request cannot be built. -/
theorem ServeHTTP_buildError {H : Type} (env : Env) (a : RptHandler H) (req : Request)
    (e : String) (hauth : req.Header.Get "Authorization" ≠ "") (hm : req.Method ≠ "OPTIONS")
    (hreq : newExchangeRequest env a.keycloak a.audience (req.Header.Get "Authorization")
      = .error e) :
    ServeHTTP env a req =
      ⟨[.log ["Could not create new request", e],
        .headerSet "Access-Control-Allow-Origin" (req.Header.Get "Origin"),
        .writeHeader 500], req⟩ := by
  simp [ServeHTTP, hauth, hm, hreq, StatusInternalServerError]

/-- The run of `ServeHTTP` when the outbound call fails. -/
theorem ServeHTTP_doError {H : Type} (env : Env) (a : RptHandler H) (req r : Request)
    (e : String) (hauth : req.Header.Get "Authorization" ≠ "") (hm : req.Method ≠ "OPTIONS")
    (hreq : newExchangeRequest env a.keycloak a.audience (req.Header.Get "Authorization") = .ok r)
    (hdo : env.Do r = .error e) :
    ServeHTTP env a req =
      ⟨[.clientDo r, .log ["Could not execute request", e],
        .headerSet "Access-Control-Allow-Origin" (req.Header.Get "Origin"),
        .writeHeader 500], req⟩ := by
  simp [ServeHTTP, hauth, hm, hreq, hdo, StatusInternalServerError]

/-- The run of `ServeHTTP` when the response body cannot be read. -/
theorem ServeHTTP_readError {H : Type} (env : Env) (a : RptHandler H) (req r : Request)
    (resp : Response) (e : String)
    (hauth : req.Header.Get "Authorization" ≠ "") (hm : req.Method ≠ "OPTIONS")
    (hreq : newExchangeRequest env a.keycloak a.audience (req.Header.Get "Authorization") = .ok r)
    (hdo : env.Do r = .ok resp) (hread : resp.Body = .error e) :
    ServeHTTP env a req =
      ⟨[.clientDo r, .log ["Could not read body from response", e],
        .headerSet "Access-Control-Allow-Origin" (req.Header.Get "Origin"),
        .writeHeader 500, .bodyClose], req⟩ := by
  simp [ServeHTTP, hauth, hm, hreq, hdo, hread, StatusInternalServerError]

/-- The run of `ServeHTTP` when the body does not decode. -/
theorem ServeHTTP_decodeError {H : Type} (env : Env) (a : RptHandler H) (req r : Request)
    (resp : Response) (body : String) (tb : RptTokenBody) (e : String)
    (hauth : req.Header.Get "Authorization" ≠ "") (hm : req.Method ≠ "OPTIONS")
    (hreq : newExchangeRequest env a.keycloak a.audience (req.Header.Get "Authorization") = .ok r)
    (hdo : env.Do r = .ok resp) (hread : resp.Body = .ok body)
    (hdec : env.Unmarshal body {} = (tb, some e)) :
    ServeHTTP env a req =
      ⟨[.clientDo r, .log ["Unmarshalling failed :", e],
        .headerSet "Access-Control-Allow-Origin" (req.Header.Get "Origin"),
        .writeHeader 403, .bodyClose], req⟩ := by
  simp [ServeHTTP, hauth, hm, hreq, hdo, hread, hdec, StatusForbidden]

/-- The run of `ServeHTTP` on a bypassed request. -/
theorem ServeHTTP_bypass {H : Type} (env : Env) (a : RptHandler H) (req : Request)
    (h : req.Header.Get "Authorization" = "" ∨ req.Method = "OPTIONS") :
    ServeHTTP env a req = ⟨[.next a.next req], req⟩ := by
  simp [ServeHTTP, h]

/-- Claim C2 (bypass).  When the `Authorization` header is absent or empty, or the
method is `OPTIONS` (whatever the header), the run of `ServeHTTP` consists of one
call of the downstream handler with the request as it came in: no exchange call,
no status and no header written by the handler, and the request is left as it
was. -/
theorem bypass_forwards_unchanged {H : Type} (env : Env) (a : RptHandler H) (req : Request)
    (h : req.Header.Values "Authorization" = [] ∨ req.Header.Get "Authorization" = ""
      ∨ req.Method = "OPTIONS") :
    (ServeHTTP env a req).trace = [Event.next a.next req] ∧
    nextCalls (ServeHTTP env a req).trace = [(a.next, req)] ∧
    exchangeCalls (ServeHTTP env a req).trace = [] ∧
    statusWrites (ServeHTTP env a req).trace = [] ∧
    headerSets (ServeHTTP env a req).trace = [] ∧
    (ServeHTTP env a req).req = req := by
  have hby : req.Header.Get "Authorization" = "" ∨ req.Method = "OPTIONS" := by
    rcases h with h | h | h
    · exact Or.inl (Header.Get_of_Values_nil _ _ h)
    · exact Or.inl h
    · exact Or.inr h
  simp [ServeHTTP, hby, nextCalls, exchangeCalls, statusWrites, headerSets]

/-- Claim C1 (success path).  For a request that is not bypassed, when the
exchange request is built, the call returns a response, its body is read and
decodes without error to a structure whose `Error` is empty, the downstream
handler is called exactly once, the handler writes no status and no header, and
the forwarded request has the method, target and body of the inbound one and the
same values for every header but `Authorization`, whose only value is
`"Bearer "` followed by the decoded `Access_token`, whatever that token is. -/
theorem success_forwards_bearer {H : Type} (env : Env) (a : RptHandler H) (req r : Request)
    (resp : Response) (body : String) (tb : RptTokenBody)
    (hauth : req.Header.Get "Authorization" ≠ "") (hm : req.Method ≠ "OPTIONS")
    (hreq : newExchangeRequest env a.keycloak a.audience (req.Header.Get "Authorization") = .ok r)
    (hdo : env.Do r = .ok resp) (hread : resp.Body = .ok body)
    (hdec : env.Unmarshal body {} = (tb, none)) (herr : tb.Error = "") :
    ∃ fwd : Request,
      nextCalls (ServeHTTP env a req).trace = [(a.next, fwd)] ∧
      statusWrites (ServeHTTP env a req).trace = [] ∧
      headerSets (ServeHTTP env a req).trace = [] ∧
      fwd.Method = req.Method ∧ fwd.URL = req.URL ∧ fwd.Body = req.Body ∧
      fwd.Header.Values "Authorization" = ["Bearer " ++ tb.Access_token] ∧
      fwd.Header.Get "Authorization" = "Bearer " ++ tb.Access_token ∧
      (∀ k, k ≠ "Authorization" → fwd.Header.Values k = req.Header.Values k) ∧
      (ServeHTTP env a req).req = fwd := by
  refine ⟨{ req with Header := req.Header.Set "Authorization" ("Bearer " ++ tb.Access_token) },
    ?_, ?_, ?_, rfl, rfl, rfl, Header.Values_Set_self _ _ _, Header.Get_Set_self _ _ _,
    fun k hk => Header.Values_Set_ne _ _ _ _ hk, ?_⟩ <;>
  simp [ServeHTTP_decoded env a req r resp body tb hauth hm hreq hdo hread hdec, herr,
    nextCalls, statusWrites, headerSets]

/-- Claim C1, example: the body `{"access_token":"abc123","error":""}` makes the
handler forward `Authorization: Bearer abc123`, and the body `{}`, with neither a
token nor an error, makes it forward `Authorization: Bearer ` with nothing after
the space. -/
theorem success_forwards_bearer_witness :
    (∃ fwd : Request,
      nextCalls (ServeHTTP (answering "\x7b\"access_token\":\"abc123\",\"error\":\"\"\x7d")
        sampleHandler sampleRequest).trace = [((), fwd)] ∧
      fwd.Header.Get "Authorization" = "Bearer abc123") ∧
    (∃ fwd : Request,
      nextCalls (ServeHTTP (answering "\x7b\x7d") sampleHandler sampleRequest).trace
        = [((), fwd)] ∧
      fwd.Header.Get "Authorization" = "Bearer ") := by
  constructor
  · obtain ⟨fwd, h1, _, _, _, _, _, _, h2, _⟩ :=
      success_forwards_bearer (answering "\x7b\"access_token\":\"abc123\",\"error\":\"\"\x7d")
        sampleHandler sampleRequest _ _ _ { Access_token := "abc123" }
        (by decide) (by decide) rfl rfl rfl rfl rfl
    exact ⟨fwd, h1, h2⟩
  · obtain ⟨fwd, h1, _, _, _, _, _, _, h2, _⟩ :=
      success_forwards_bearer (answering "\x7b\x7d") sampleHandler sampleRequest _ _ _ {}
        (by decide) (by decide) rfl rfl rfl rfl rfl
    exact ⟨fwd, h1, h2⟩

/-- Claim C2, example: a request without `Authorization`, and an `OPTIONS` request
that carries one, both reach the downstream handler untouched. -/
theorem bypass_forwards_unchanged_witness :
    (ServeHTTP (answering "") sampleHandler
      { sampleRequest with Header := ⟨[("Origin", ["https://app.example"])]⟩ }).trace =
      [Event.next () { sampleRequest with Header := ⟨[("Origin", ["https://app.example"])]⟩ }] ∧
    (ServeHTTP (answering "") sampleHandler { sampleRequest with Method := "OPTIONS" }).trace =
      [Event.next () { sampleRequest with Method := "OPTIONS" }] :=
  ⟨(bypass_forwards_unchanged (answering "") sampleHandler
      { sampleRequest with Header := ⟨[("Origin", ["https://app.example"])]⟩ }
      (Or.inl rfl)).1,
   (bypass_forwards_unchanged (answering "") sampleHandler
      { sampleRequest with Method := "OPTIONS" } (Or.inr (Or.inr rfl))).1⟩

/-- Claim C3, as stated, fails.  The error value `"\tinvalid_grant\n"` is the code
`invalid_grant` between a tab and a newline, and the handler answers 403, not
401. -/
theorem expired_grant_whitespace_counterexample :
    (sampleUnmarshal "\x7b\"error\":\"\\tinvalid_grant\\n\"\x7d" {}).1.Error
      = "\t" ++ "invalid_grant" ++ "\n" ∧
    statusWrites (ServeHTTP (answering "\x7b\"error\":\"\\tinvalid_grant\\n\"\x7d")
      sampleHandler sampleRequest).trace = [403] ∧
    statusWrites (ServeHTTP (answering "\x7b\"error\":\"\\tinvalid_grant\\n\"\x7d")
      sampleHandler sampleRequest).trace ≠ [401] := by
  decide

/-- Claim C3, amended.  For a request that is not bypassed and a decoded response
whose error is `invalid_grant` between any two (possibly empty) runs of space
characters (U+0020), the handler answers 401 and does not call the downstream
handler. -/
theorem expired_grant_space_padded {H : Type} (env : Env) (a : RptHandler H) (req r : Request)
    (resp : Response) (body : String) (tb : RptTokenBody) (m n : Nat)
    (hauth : req.Header.Get "Authorization" ≠ "") (hm : req.Method ≠ "OPTIONS")
    (hreq : newExchangeRequest env a.keycloak a.audience (req.Header.Get "Authorization") = .ok r)
    (hdo : env.Do r = .ok resp) (hread : resp.Body = .ok body)
    (hdec : env.Unmarshal body {} = (tb, none))
    (herr : tb.Error = spaces m ++ "invalid_grant" ++ spaces n) :
    statusWrites (ServeHTTP env a req).trace = [401] ∧
    nextCalls (ServeHTTP env a req).trace = [] := by
  have ht : Trim tb.Error " " = "invalid_grant" := by
    rw [herr]
    exact Trim_space_padded m n "invalid_grant" (by decide)
  have hne : tb.Error ≠ "" := by
    intro h0
    rw [h0] at ht
    exact absurd ht (by decide)
  simp [ServeHTTP_decoded env a req r resp body tb hauth hm hreq hdo hread hdec, hne, ht,
    statusWrites, nextCalls]

/-- Claim C3, amended, example: the bare code and the code with two spaces before
and one after both give 401. -/
theorem expired_grant_space_padded_witness :
    statusWrites (ServeHTTP (answering "\x7b\"error\":\"invalid_grant\"\x7d")
      sampleHandler sampleRequest).trace = [401] ∧
    statusWrites (ServeHTTP (answering "\x7b\"error\":\"  invalid_grant \"\x7d")
      sampleHandler sampleRequest).trace = [401] :=
  ⟨(expired_grant_space_padded (answering "\x7b\"error\":\"invalid_grant\"\x7d")
      sampleHandler sampleRequest _ _ _ { Error := "invalid_grant" } 0 0
      (by decide) (by decide) rfl rfl rfl rfl (by decide)).1,
   (expired_grant_space_padded (answering "\x7b\"error\":\"  invalid_grant \"\x7d")
      sampleHandler sampleRequest _ _ _ { Error := "  invalid_grant " } 2 1
      (by decide) (by decide) rfl rfl rfl rfl (by decide)).1⟩

/-- Claim C4 (expired grant, space-trimmed form).  For a request that is not
bypassed and a decoded response with a non-empty error, the handler answers 401
exactly when the error with its leading and trailing spaces removed is
`invalid_grant`; then the downstream handler is not called and the request, its
`Authorization` header included, is left as it came in. -/
theorem expired_grant_iff_space_trimmed {H : Type} (env : Env) (a : RptHandler H)
    (req r : Request) (resp : Response) (body : String) (tb : RptTokenBody)
    (hauth : req.Header.Get "Authorization" ≠ "") (hm : req.Method ≠ "OPTIONS")
    (hreq : newExchangeRequest env a.keycloak a.audience (req.Header.Get "Authorization") = .ok r)
    (hdo : env.Do r = .ok resp) (hread : resp.Body = .ok body)
    (hdec : env.Unmarshal body {} = (tb, none)) (hne : tb.Error ≠ "") :
    (statusWrites (ServeHTTP env a req).trace = [401]
      ↔ stripSpaces tb.Error = "invalid_grant") ∧
    (stripSpaces tb.Error = "invalid_grant" →
      nextCalls (ServeHTTP env a req).trace = [] ∧
      (ServeHTTP env a req).req = req ∧
      (ServeHTTP env a req).req.Header.Values "Authorization"
        = req.Header.Values "Authorization") := by
  rw [← Trim_space_eq_stripSpaces]
  by_cases ht : Trim tb.Error " " = "invalid_grant" <;>
  simp [ServeHTTP_decoded env a req r resp body tb hauth hm hreq hdo hread hdec, hne, ht,
    statusWrites, nextCalls]

/-- Claim C4, example: `"  invalid_grant "` gives 401 and `"access_denied"` does
not. -/
theorem expired_grant_iff_space_trimmed_witness :
    (statusWrites (ServeHTTP (answering "\x7b\"error\":\"  invalid_grant \"\x7d")
        sampleHandler sampleRequest).trace = [401]
      ↔ stripSpaces "  invalid_grant " = "invalid_grant") ∧
    stripSpaces "  invalid_grant " = "invalid_grant" :=
  ⟨(expired_grant_iff_space_trimmed (answering "\x7b\"error\":\"  invalid_grant \"\x7d")
      sampleHandler sampleRequest _ _ _ { Error := "  invalid_grant " }
      (by decide) (by decide) rfl rfl rfl rfl (by decide)).1, by decide⟩

/-- Claim C5 (generic authorization failure).  For a request that is not bypassed
and a decoded response whose error is non-empty and is not the expired-grant
code (it is not `invalid_grant` once the surrounding spaces are removed), the
handler answers 403, does not call the downstream handler and leaves the request
as it came in, whatever `Access_token` the same response carries. -/
theorem other_error_forbidden {H : Type} (env : Env) (a : RptHandler H)
    (req r : Request) (resp : Response) (body : String) (tb : RptTokenBody)
    (hauth : req.Header.Get "Authorization" ≠ "") (hm : req.Method ≠ "OPTIONS")
    (hreq : newExchangeRequest env a.keycloak a.audience (req.Header.Get "Authorization") = .ok r)
    (hdo : env.Do r = .ok resp) (hread : resp.Body = .ok body)
    (hdec : env.Unmarshal body {} = (tb, none)) (hne : tb.Error ≠ "")
    (hng : stripSpaces tb.Error ≠ "invalid_grant") :
    statusWrites (ServeHTTP env a req).trace = [403] ∧
    nextCalls (ServeHTTP env a req).trace = [] ∧
    (ServeHTTP env a req).req = req ∧
    (ServeHTTP env a req).req.Header.Values "Authorization"
      = req.Header.Values "Authorization" := by
  rw [← Trim_space_eq_stripSpaces] at hng
  simp [ServeHTTP_decoded env a req r resp body tb hauth hm hreq hdo hread hdec, hne, hng,
    statusWrites, nextCalls]

/-- Claim C5, example: `access_denied` gives 403 although the same response
carries a token. -/
theorem other_error_forbidden_witness :
    statusWrites (ServeHTTP
      (answering "\x7b\"access_token\":\"abc123\",\"error\":\"access_denied\"\x7d")
      sampleHandler sampleRequest).trace = [403] ∧
    nextCalls (ServeHTTP
      (answering "\x7b\"access_token\":\"abc123\",\"error\":\"access_denied\"\x7d")
      sampleHandler sampleRequest).trace = [] :=
  have h := other_error_forbidden
    (answering "\x7b\"access_token\":\"abc123\",\"error\":\"access_denied\"\x7d")
    sampleHandler sampleRequest _ _ _ { Access_token := "abc123", Error := "access_denied" }
    (by decide) (by decide) rfl rfl rfl rfl (by decide) (by decide)
  ⟨h.1, h.2.1⟩

/-- Claim C6 (malformed body).  For a request that is not bypassed whose exchange
body fails to decode, whatever the decoder has put into the structure before
failing, the handler answers 403, does not call the downstream handler and
leaves the request, its `Authorization` header included, as it came in. -/
theorem decode_failure_forbidden {H : Type} (env : Env) (a : RptHandler H)
    (req r : Request) (resp : Response) (body : String) (tb : RptTokenBody) (e : String)
    (hauth : req.Header.Get "Authorization" ≠ "") (hm : req.Method ≠ "OPTIONS")
    (hreq : newExchangeRequest env a.keycloak a.audience (req.Header.Get "Authorization") = .ok r)
    (hdo : env.Do r = .ok resp) (hread : resp.Body = .ok body)
    (hdec : env.Unmarshal body {} = (tb, some e)) :
    statusWrites (ServeHTTP env a req).trace = [403] ∧
    nextCalls (ServeHTTP env a req).trace = [] ∧
    (ServeHTTP env a req).req = req ∧
    (ServeHTTP env a req).req.Header.Values "Authorization"
      = req.Header.Values "Authorization" := by
  simp [ServeHTTP_decodeError env a req r resp body tb e hauth hm hreq hdo hread hdec,
    statusWrites, nextCalls]

/-- Claim C6, example: a body that is no JSON, and a body whose `expires_in` is a
string while its `access_token` has been decoded, both give 403 and leave the
inbound credential in place. -/
theorem decode_failure_forbidden_witness :
    statusWrites (ServeHTTP (answering "not json") sampleHandler sampleRequest).trace = [403] ∧
    (ServeHTTP (answering "\x7b\"access_token\":\"abc123\",\"expires_in\":\"soon\"\x7d")
      sampleHandler sampleRequest).req.Header.Values "Authorization" = ["Bearer user-token"] :=
  ⟨(decode_failure_forbidden (answering "not json") sampleHandler sampleRequest _ _ _ {}
      "invalid character in JSON input" (by decide) (by decide) rfl rfl rfl rfl).1,
   (decode_failure_forbidden
      (answering "\x7b\"access_token\":\"abc123\",\"expires_in\":\"soon\"\x7d")
      sampleHandler sampleRequest _ _ _ { Access_token := "abc123" } _
      (by decide) (by decide) rfl rfl rfl rfl).2.2.2⟩

/-- Claim C7 (transport and read failure).  For a request that is not bypassed,
when the exchange request cannot be built, or the outbound call fails, or the
response body cannot be read, the handler answers 500, does not call the
downstream handler and leaves the request as it came in. -/
theorem transport_failure_internal_error {H : Type} (env : Env) (a : RptHandler H)
    (req : Request)
    (hauth : req.Header.Get "Authorization" ≠ "") (hm : req.Method ≠ "OPTIONS")
    (h : (∃ e, newExchangeRequest env a.keycloak a.audience (req.Header.Get "Authorization")
          = .error e) ∨
      (∃ r e, newExchangeRequest env a.keycloak a.audience (req.Header.Get "Authorization")
          = .ok r ∧ env.Do r = .error e) ∨
      (∃ r resp e, newExchangeRequest env a.keycloak a.audience
          (req.Header.Get "Authorization") = .ok r ∧ env.Do r = .ok resp ∧
          resp.Body = .error e)) :
    statusWrites (ServeHTTP env a req).trace = [500] ∧
    nextCalls (ServeHTTP env a req).trace = [] ∧
    (ServeHTTP env a req).req = req ∧
    (ServeHTTP env a req).req.Header.Values "Authorization"
      = req.Header.Values "Authorization" := by
  rcases h with ⟨e, h1⟩ | ⟨r, e, h1, h2⟩ | ⟨r, resp, e, h1, h2, h3⟩
  · simp [ServeHTTP_buildError env a req e hauth hm h1, statusWrites, nextCalls]
  · simp [ServeHTTP_doError env a req r e hauth hm h1 h2, statusWrites, nextCalls]
  · simp [ServeHTTP_readError env a req r resp e hauth hm h1 h2 h3, statusWrites, nextCalls]

/-- Claim C7, example: an endpoint that does not parse, an unreachable endpoint and
a body stream that breaks all give 500. -/
theorem transport_failure_internal_error_witness :
    statusWrites (ServeHTTP { answering "" with urlParse := fun _ => some "missing scheme" }
      sampleHandler sampleRequest).trace = [500] ∧
    statusWrites (ServeHTTP { answering "" with Do := fun _ => .error "connection refused" }
      sampleHandler sampleRequest).trace = [500] ∧
    statusWrites (ServeHTTP
      { answering "" with Do := fun _ => .ok { StatusCode := 200, Body := .error "EOF" } }
      sampleHandler sampleRequest).trace = [500] :=
  ⟨(transport_failure_internal_error
      { answering "" with urlParse := fun _ => some "missing scheme" }
      sampleHandler sampleRequest (by decide) (by decide) (Or.inl ⟨_, rfl⟩)).1,
   (transport_failure_internal_error
      { answering "" with Do := fun _ => .error "connection refused" }
      sampleHandler sampleRequest (by decide) (by decide)
      (Or.inr (Or.inl ⟨_, _, rfl, rfl⟩))).1,
   (transport_failure_internal_error
      { answering "" with Do := fun _ => .ok { StatusCode := 200, Body := .error "EOF" } }
      sampleHandler sampleRequest (by decide) (by decide)
      (Or.inr (Or.inr ⟨_, _, _, rfl, rfl, rfl⟩))).1⟩

/-- Claim C8 (CORS echo).  In every run of `ServeHTTP`, either the handler makes no
call on the response writer, or it makes exactly two: it sets
`Access-Control-Allow-Origin` to the value of the inbound `Origin` header (the
empty string when the request has none) and then writes one status, which is
500, 401 or 403; in that case the downstream handler is not called. -/
theorem rejection_echoes_origin {H : Type} (env : Env) (a : RptHandler H) (req : Request) :
    (rwCalls (ServeHTTP env a req).trace = [] ∧
      statusWrites (ServeHTTP env a req).trace = [] ∧
      headerSets (ServeHTTP env a req).trace = []) ∨
    (∃ c, (c = 500 ∨ c = 401 ∨ c = 403) ∧
      rwCalls (ServeHTTP env a req).trace =
        [.headerSet "Access-Control-Allow-Origin" (req.Header.Get "Origin"), .writeHeader c] ∧
      statusWrites (ServeHTTP env a req).trace = [c] ∧
      headerSets (ServeHTTP env a req).trace =
        [("Access-Control-Allow-Origin", req.Header.Get "Origin")] ∧
      nextCalls (ServeHTTP env a req).trace = [] ∧
      (req.Header.Values "Origin" = [] →
        headerSets (ServeHTTP env a req).trace = [("Access-Control-Allow-Origin", "")])) := by
  have horigin : req.Header.Values "Origin" = [] → req.Header.Get "Origin" = "" :=
    Header.Get_of_Values_nil _ _
  by_cases hby : req.Header.Get "Authorization" = "" ∨ req.Method = "OPTIONS"
  · left
    simp [ServeHTTP_bypass env a req hby, rwCalls, statusWrites, headerSets]
  · have hauth : req.Header.Get "Authorization" ≠ "" := fun h => hby (Or.inl h)
    have hm : req.Method ≠ "OPTIONS" := fun h => hby (Or.inr h)
    cases hreq : newExchangeRequest env a.keycloak a.audience (req.Header.Get "Authorization") with
    | error e =>
      refine Or.inr ⟨500, by simp, ?_⟩
      simp only [ServeHTTP_buildError env a req e hauth hm hreq, rwCalls, statusWrites,
        headerSets, nextCalls, true_and]
      intro h
      rw [horigin h]
    | ok r =>
      cases hdo : env.Do r with
      | error e =>
        refine Or.inr ⟨500, by simp, ?_⟩
        simp only [ServeHTTP_doError env a req r e hauth hm hreq hdo, rwCalls, statusWrites,
          headerSets, nextCalls, true_and]
        intro h
        rw [horigin h]
      | ok resp =>
        cases hread : resp.Body with
        | error e =>
          refine Or.inr ⟨500, by simp, ?_⟩
          simp only [ServeHTTP_readError env a req r resp e hauth hm hreq hdo hread, rwCalls,
            statusWrites, headerSets, nextCalls, true_and]
          intro h
          rw [horigin h]
        | ok body =>
          obtain ⟨tb, err, hdec⟩ : ∃ tb err, env.Unmarshal body {} = (tb, err) := ⟨_, _, rfl⟩
          cases err with
          | some e =>
            refine Or.inr ⟨403, by simp, ?_⟩
            simp only [ServeHTTP_decodeError env a req r resp body tb e hauth hm hreq hdo hread
              hdec, rwCalls, statusWrites, headerSets, nextCalls, true_and]
            intro h
            rw [horigin h]
          | none =>
            have hrun := ServeHTTP_decoded env a req r resp body tb hauth hm hreq hdo hread hdec
            by_cases he : tb.Error = ""
            · left
              simp [hrun, he, rwCalls, statusWrites, headerSets]
            · by_cases ht : Trim tb.Error " " = "invalid_grant"
              · refine Or.inr ⟨401, by simp, ?_⟩
                simp only [hrun, he, ht, if_false, if_true, rwCalls, statusWrites, headerSets,
                  nextCalls, true_and]
                intro h
                rw [horigin h]
              · refine Or.inr ⟨403, by simp, ?_⟩
                simp only [hrun, he, ht, if_false, rwCalls, statusWrites, headerSets,
                  nextCalls, true_and]
                intro h
                rw [horigin h]

/-- Claim C8, example: a rejected request without an `Origin` header gets an empty
`Access-Control-Allow-Origin` and one of the three statuses. -/
theorem rejection_echoes_origin_witness :
    ∃ c, (c = 500 ∨ c = 401 ∨ c = 403) ∧
      rwCalls (ServeHTTP (answering "not json") sampleHandler
        { sampleRequest with Header := ⟨[("Authorization", ["Bearer user-token"])]⟩ }).trace =
        [.headerSet "Access-Control-Allow-Origin" "", .writeHeader c] := by
  rcases rejection_echoes_origin (answering "not json") sampleHandler
    { sampleRequest with Header := ⟨[("Authorization", ["Bearer user-token"])]⟩ } with h | h
  · exact absurd h.1 (by decide)
  · obtain ⟨c, hc, h1, _⟩ := h
    exact ⟨c, hc, h1⟩

/-- Claim C9 (construction).  `New` returns an error, and so no handler, exactly
when `config.Keycloak` is empty; for every other value of it and every
`Audience`, the empty one included, it returns the handler that holds the
configured `Keycloak` and `Audience`, the given downstream handler and the given
name. -/
theorem New_fails_iff_endpoint_empty {C H : Type} (ctx : C) (next : H) (config : Config)
    (name : String) :
    ((∃ e, New ctx next config name = .error e) ↔ config.Keycloak = "") ∧
    (config.Keycloak = "" → New ctx next config name = .error "keycloak cannot be empty") ∧
    (config.Keycloak ≠ "" → New ctx next config name =
      .ok { next := next, keycloak := config.Keycloak, audience := config.Audience,
            name := name }) := by
  by_cases h : config.Keycloak = ""
  · have h0 : config.Keycloak.utf8ByteSize = 0 := (utf8ByteSize_eq_zero_iff _).2 h
    have hnew : New ctx next config name = .error "keycloak cannot be empty" := by
      simp [New, h0]
    exact ⟨⟨fun _ => h, fun _ => ⟨_, hnew⟩⟩, fun _ => hnew, fun hne => absurd h hne⟩
  · have h0 : ¬ config.Keycloak.utf8ByteSize = 0 := fun h1 => h ((utf8ByteSize_eq_zero_iff _).1 h1)
    have hnew : New ctx next config name =
        .ok { next := next, keycloak := config.Keycloak, audience := config.Audience,
              name := name } := by
      simp [New, h0]
    refine ⟨⟨?_, fun h1 => absurd h1 h⟩, fun h1 => absurd h1 h, fun _ => hnew⟩
    rintro ⟨e, he⟩
    rw [hnew] at he
    cases he

/-- Claim C9, example: the default configuration is refused, and an endpoint with
an empty audience is accepted. -/
theorem New_fails_iff_endpoint_empty_witness :
    New () () CreateConfig "rpt" = .error "keycloak cannot be empty" ∧
    New () () ⟨"https://sso.example/token", ""⟩ "rpt" =
      .ok { next := (), keycloak := "https://sso.example/token", audience := "", name := "rpt" } :=
  ⟨(New_fails_iff_endpoint_empty () () CreateConfig "rpt").2.1 rfl,
   (New_fails_iff_endpoint_empty () () ⟨"https://sso.example/token", ""⟩ "rpt").2.2
     (by decide)⟩

/-! ## Form encoding and decoding -/

theorem upperhex_spec : ∀ n, n < 16 →
    ishex (upperhex n) = true ∧ unhex (upperhex n) = n ∧
    upperhex n ≠ '&' ∧ upperhex n ≠ '=' ∧ upperhex n ≠ ';' := by
  decide

theorem utf8Bytes_lt (c : Char) : ∀ b ∈ utf8Bytes c, b < 256 := by
  intro b hb
  simp only [utf8Bytes, List.mem_map] at hb
  obtain ⟨x, _, rfl⟩ := hb
  exact x.val.isLt

theorem QueryUnescape_escapeByte (b : Nat) (hb : b < 256) (t : List Char) :
    QueryUnescape (escapeByte b ++ t) = (QueryUnescape t).map (fun bs => b :: bs) := by
  have h1 := upperhex_spec (b / 16) (by omega)
  have h2 := upperhex_spec (b % 16) (by omega)
  have hv : unhex (upperhex (b / 16)) * 16 + unhex (upperhex (b % 16)) = b := by
    rw [h1.2.1, h2.2.1]
    omega
  simp [escapeByte, QueryUnescape, h1.1, h2.1, hv]

theorem QueryUnescape_escapeBytes (bs : List Nat) (h : ∀ b ∈ bs, b < 256) (t : List Char) :
    QueryUnescape (bs.flatMap escapeByte ++ t) = (QueryUnescape t).map (fun r => bs ++ r) := by
  induction bs with
  | nil => simp
  | cons b bs ih =>
    have hb : b < 256 := h b (List.mem_cons_self _ _)
    have ih2 := ih (fun x hx => h x (List.mem_cons_of_mem _ hx))
    rw [List.flatMap_cons, List.append_assoc, QueryUnescape_escapeByte b hb, ih2]
    cases QueryUnescape t <;> simp

theorem unreserved_ne (c : Char) (h : shouldEscape c = false) :
    c ≠ '%' ∧ c ≠ '+' ∧ c ≠ '&' ∧ c ≠ '=' ∧ c ≠ ';' := by
  refine ⟨?_, ?_, ?_, ?_, ?_⟩ <;>
  · rintro rfl
    exact absurd h (by decide)

theorem QueryUnescape_cons_of_ne (c : Char) (t : List Char) (h : c ≠ '%') :
    QueryUnescape (c :: t) =
      if c = '+' then (QueryUnescape t).map (fun bs => 32 :: bs)
      else (QueryUnescape t).map (fun bs => utf8Bytes c ++ bs) := by
  rcases t with _ | ⟨x, _ | ⟨y, r⟩⟩ <;> simp [QueryUnescape, h]

theorem QueryUnescape_escapeChar (c : Char) (t : List Char) :
    QueryUnescape (escapeChar c ++ t) = (QueryUnescape t).map (fun r => utf8Bytes c ++ r) := by
  by_cases hsp : c = ' '
  · subst hsp
    have hb : utf8Bytes ' ' = [32] := by decide
    have hne : ¬ ('+' : Char) = '%' := by decide
    rw [show escapeChar ' ' = ['+'] from rfl, List.singleton_append,
      QueryUnescape_cons_of_ne _ _ hne, if_pos rfl, hb]
    rfl
  · by_cases hesc : shouldEscape c = true
    · simp only [escapeChar, hsp, hesc, if_false, if_true]
      exact QueryUnescape_escapeBytes _ (utf8Bytes_lt c) t
    · have hesc2 : shouldEscape c = false := by simpa using hesc
      obtain ⟨h1, h2, _⟩ := unreserved_ne c hesc2
      have he : escapeChar c = [c] := by simp [escapeChar, hsp, hesc2]
      rw [he, List.singleton_append, QueryUnescape_cons_of_ne _ _ h1, if_neg h2]

theorem QueryUnescape_escape (cs : List Char) (t : List Char) :
    QueryUnescape (cs.flatMap escapeChar ++ t)
      = (QueryUnescape t).map (fun r => cs.flatMap utf8Bytes ++ r) := by
  induction cs with
  | nil => simp
  | cons c cs ih =>
    rw [List.flatMap_cons, List.append_assoc, QueryUnescape_escapeChar, ih]
    cases QueryUnescape t <;> simp

theorem QueryUnescape_QueryEscape (s : String) :
    QueryUnescape (QueryEscape s).data = some (utf8 s) := by
  have h := QueryUnescape_escape s.data []
  simpa [QueryEscape, utf8, QueryUnescape] using h

theorem escapeChar_clean (c : Char) :
    ∀ x ∈ escapeChar c, x ≠ '&' ∧ x ≠ '=' ∧ x ≠ ';' := by
  intro x hx
  by_cases hsp : c = ' '
  · subst hsp
    have : x = '+' := by simpa [escapeChar] using hx
    subst this
    decide
  · by_cases hesc : shouldEscape c = true
    · simp only [escapeChar, hsp, hesc, if_false, if_true, List.mem_flatMap] at hx
      obtain ⟨b, hb, hxb⟩ := hx
      have hb2 := utf8Bytes_lt c b hb
      have h1 := upperhex_spec (b / 16) (by omega)
      have h2 := upperhex_spec (b % 16) (by omega)
      simp only [escapeByte, List.mem_cons, List.mem_singleton, List.mem_nil_iff, or_false] at hxb
      rcases hxb with rfl | rfl | rfl
      · decide
      · exact h1.2.2
      · exact h2.2.2
    · have hesc2 : shouldEscape c = false := by simpa using hesc
      have : x = c := by simpa [escapeChar, hsp, hesc2] using hx
      subst this
      exact (unreserved_ne x hesc2).2.2

theorem QueryEscape_clean (s : String) :
    ∀ x ∈ (QueryEscape s).data, x ≠ '&' ∧ x ≠ '=' ∧ x ≠ ';' := by
  intro x hx
  simp only [QueryEscape, List.mem_flatMap] at hx
  obtain ⟨c, _, hc⟩ := hx
  exact escapeChar_clean c x hc

theorem splitOnChar_append (sep : Char) (l rest : List Char) (h : ∀ c ∈ l, c ≠ sep) :
    splitOnChar sep (l ++ sep :: rest) = l :: splitOnChar sep rest := by
  induction l with
  | nil => simp [splitOnChar]
  | cons c cs ih =>
    have hc : c ≠ sep := h c (List.mem_cons_self _ _)
    have ih2 := ih (fun x hx => h x (List.mem_cons_of_mem _ hx))
    simp [splitOnChar, hc, ih2]

theorem splitOnChar_clean (sep : Char) (l : List Char) (h : ∀ c ∈ l, c ≠ sep) :
    splitOnChar sep l = [l] := by
  induction l with
  | nil => simp [splitOnChar]
  | cons c cs ih =>
    have hc : c ≠ sep := h c (List.mem_cons_self _ _)
    have ih2 := ih (fun x hx => h x (List.mem_cons_of_mem _ hx))
    simp [splitOnChar, hc, ih2]

theorem cutChar_append (sep : Char) (l rest : List Char) (h : ∀ c ∈ l, c ≠ sep) :
    cutChar sep (l ++ sep :: rest) = (l, rest) := by
  induction l with
  | nil => simp [cutChar]
  | cons c cs ih =>
    have hc : c ≠ sep := h c (List.mem_cons_self _ _)
    have ih2 := ih (fun x hx => h x (List.mem_cons_of_mem _ hx))
    simp [cutChar, hc, ih2]

theorem parsePair_escaped (k v : String) :
    parsePair ((QueryEscape k).data ++ '=' :: (QueryEscape v).data) = some (utf8 k, utf8 v) := by
  have h1 : ';' ∉ (QueryEscape k).data := fun hc => (QueryEscape_clean k _ hc).2.2 rfl
  have h2 : ';' ∉ (QueryEscape v).data := fun hc => (QueryEscape_clean v _ hc).2.2 rfl
  have hcut := cutChar_append '=' (QueryEscape k).data (QueryEscape v).data
    (fun c hc => (QueryEscape_clean k c hc).2.1)
  simp [parsePair, hcut, QueryUnescape_QueryEscape, h1, h2]

theorem pair_clean (k v : String) :
    ∀ c ∈ (QueryEscape k).data ++ '=' :: (QueryEscape v).data, c ≠ '&' := by
  intro c hc
  simp only [List.mem_append, List.mem_cons] at hc
  rcases hc with hc | rfl | hc
  · exact (QueryEscape_clean k c hc).1
  · decide
  · exact (QueryEscape_clean v c hc).1

theorem parseForm_two_pairs (k1 v1 k2 v2 : String) :
    parseForm (QueryEscape k1 ++ "=" ++ QueryEscape v1 ++ "&" ++ QueryEscape k2 ++ "="
      ++ QueryEscape v2) = some [(utf8 k1, utf8 v1), (utf8 k2, utf8 v2)] := by
  have hd : (QueryEscape k1 ++ "=" ++ QueryEscape v1 ++ "&" ++ QueryEscape k2 ++ "="
      ++ QueryEscape v2).data =
      ((QueryEscape k1).data ++ '=' :: (QueryEscape v1).data) ++
        '&' :: ((QueryEscape k2).data ++ '=' :: (QueryEscape v2).data) := by
    simp [String.data_append]
  rw [parseForm, hd, splitOnChar_append _ _ _ (pair_clean k1 v1),
    splitOnChar_clean _ _ (pair_clean k2 v2)]
  simp [List.mapM, List.mapM.loop, parsePair_escaped]

theorem exchange_form_Encode (audience : String) :
    (((⟨[]⟩ : Values).Set "grant_type"
      "urn:ietf:params:oauth:grant-type:uma-ticket").Set "audience" audience).Encode =
    QueryEscape "audience" ++ "=" ++ QueryEscape audience ++ "&" ++ QueryEscape "grant_type"
      ++ "=" ++ QueryEscape "urn:ietf:params:oauth:grant-type:uma-ticket" := by
  have hk : (("grant_type" : String) != "audience") = true := by decide
  have hs : List.insertionSort (fun a b : String => lexLe a.data b.data = true)
      (["audience", "grant_type"] : List String).eraseDups = ["audience", "grant_type"] := by
    decide
  have h0 : ¬ (0 < ("" : String).length) := by decide
  simp only [Values.Encode, Values.Set, Values.Get, List.filter, hk, List.map, hs, List.foldl,
    List.lookup, h0, if_false]
  have hpos : ("" ++ QueryEscape "audience" ++ "=" ++ QueryEscape audience).length > 0 := by
    simp only [String.length_append, gt_iff_lt]
    have : ("=" : String).length = 1 := rfl
    omega
  rw [if_pos hpos, String.empty_append]

theorem newExchangeRequest_built (env : Env) (keycloak audience auth : String)
    (hparse : env.urlParse keycloak = none) :
    newExchangeRequest env keycloak audience auth =
      .ok { Method := "POST", URL := keycloak,
            Header := ⟨[("Content-Type", ["application/x-www-form-urlencoded"]),
              ("Authorization", [auth])]⟩,
            Body := QueryEscape "audience" ++ "=" ++ QueryEscape audience ++ "&"
              ++ QueryEscape "grant_type" ++ "="
              ++ QueryEscape "urn:ietf:params:oauth:grant-type:uma-ticket" } := by
  have hk : (("Authorization" : String) != "Content-Type") = true := by decide
  have hk2 : (("Content-Type" : String) == "Authorization") = false := by decide
  simp [newExchangeRequest, NewRequest, hparse, exchange_form_Encode, MethodPost, Header.Add,
    Header.Values, List.lookup, hk, hk2]

theorem exchangeCalls_built {H : Type} (env : Env) (a : RptHandler H) (req r : Request)
    (hauth : req.Header.Get "Authorization" ≠ "") (hm : req.Method ≠ "OPTIONS")
    (hreq : newExchangeRequest env a.keycloak a.audience (req.Header.Get "Authorization") = .ok r) :
    exchangeCalls (ServeHTTP env a req).trace = [r] := by
  cases hdo : env.Do r with
  | error e => simp [ServeHTTP_doError env a req r e hauth hm hreq hdo, exchangeCalls]
  | ok resp =>
    cases hread : resp.Body with
    | error e =>
      simp [ServeHTTP_readError env a req r resp e hauth hm hreq hdo hread, exchangeCalls]
    | ok body =>
      obtain ⟨tb, err, hdec⟩ : ∃ tb err, env.Unmarshal body {} = (tb, err) := ⟨_, _, rfl⟩
      cases err with
      | some e =>
        simp [ServeHTTP_decodeError env a req r resp body tb e hauth hm hreq hdo hread hdec,
          exchangeCalls]
      | none =>
        rw [ServeHTTP_decoded env a req r resp body tb hauth hm hreq hdo hread hdec]
        split_ifs <;> simp [exchangeCalls]

/-- Claim C10 (exchange request construction).  For a request that is not
bypassed and an endpoint that `http.NewRequest` accepts, `ServeHTTP` makes one
outbound call; its request is a `POST` to the configured endpoint, its body
decodes as a form to exactly the two fields `audience`, with the configured
audience, and `grant_type`, with the UMA-ticket grant, its `Authorization`
header is the inbound `Authorization` value, its `Content-Type` is
`application/x-www-form-urlencoded` and it has no other header; any other
inbound request with the same `Authorization` value yields the same outbound
request. -/
theorem exchange_request_shape {H : Type} (env : Env) (a : RptHandler H) (req : Request)
    (hauth : req.Header.Get "Authorization" ≠ "") (hm : req.Method ≠ "OPTIONS")
    (hparse : env.urlParse a.keycloak = none) :
    ∃ r : Request,
      exchangeCalls (ServeHTTP env a req).trace = [r] ∧
      r.Method = "POST" ∧ r.URL = a.keycloak ∧
      r.Body = "audience=" ++ QueryEscape a.audience
        ++ "&grant_type=urn%3Aietf%3Aparams%3Aoauth%3Agrant-type%3Auma-ticket" ∧
      parseForm r.Body = some [(utf8 "audience", utf8 a.audience),
        (utf8 "grant_type", utf8 "urn:ietf:params:oauth:grant-type:uma-ticket")] ∧
      r.Header.Values "Authorization" = [req.Header.Get "Authorization"] ∧
      r.Header.Values "Content-Type" = ["application/x-www-form-urlencoded"] ∧
      (∀ k, k ≠ "Authorization" → k ≠ "Content-Type" → r.Header.Values k = []) ∧
      (∀ req2 : Request, req2.Method ≠ "OPTIONS" →
        req2.Header.Get "Authorization" = req.Header.Get "Authorization" →
        exchangeCalls (ServeHTTP env a req2).trace = [r]) := by
  have hb := newExchangeRequest_built env a.keycloak a.audience (req.Header.Get "Authorization")
    hparse
  refine ⟨_, exchangeCalls_built env a req _ hauth hm hb, rfl, rfl, ?_,
    parseForm_two_pairs _ _ _ _, ?_, ?_, ?_, ?_⟩
  · have h1 : QueryEscape "audience" ++ "=" = "audience=" := by decide
    have h2 : "&" ++ QueryEscape "grant_type" ++ "="
        ++ QueryEscape "urn:ietf:params:oauth:grant-type:uma-ticket"
        = "&grant_type=urn%3Aietf%3Aparams%3Aoauth%3Agrant-type%3Auma-ticket" := by decide
    simp only [← h1, ← h2, String.append_assoc]
  · simp [Header.Values, List.lookup]
  · simp [Header.Values, List.lookup]
  · intro k h1 h2
    have e1 : (k == "Content-Type") = false := by simpa using h2
    have e2 : (k == "Authorization") = false := by simpa using h1
    simp [Header.Values, List.lookup, e1, e2]
  · intro req2 hm2 h2
    have hauth2 : req2.Header.Get "Authorization" ≠ "" := by rw [h2]; exact hauth
    exact exchangeCalls_built env a req2 _ hauth2 hm2 (by rw [h2]; exact hb)

/-- Claim C10, example: the outbound body for the audience `backend`. -/
theorem exchange_request_shape_witness :
    ∃ r : Request,
      exchangeCalls (ServeHTTP (answering "") sampleHandler sampleRequest).trace = [r] ∧
      r.Method = "POST" ∧ r.URL = "https://sso.example/token" ∧
      r.Body = "audience=backend&grant_type=urn%3Aietf%3Aparams%3Aoauth%3Agrant-type%3Auma-ticket" ∧
      parseForm r.Body = some [(utf8 "audience", utf8 "backend"),
        (utf8 "grant_type", utf8 "urn:ietf:params:oauth:grant-type:uma-ticket")] ∧
      r.Header.Values "Authorization" = ["Bearer user-token"] := by
  obtain ⟨r, h1, h2, h3, h4, h5, h6, _⟩ :=
    exchange_request_shape (answering "") sampleHandler sampleRequest (by decide) (by decide) rfl
  exact ⟨r, h1, h2, h3, h4, h5, h6⟩

end TraefikRpt
